import Mathlib

/-!
# Thiruppavai verse browser (`src/js/app.js`)

A shallow embedding of the application logic of `src/js/app.js`: the calendar rule
`getMargazhiDay`, the module-level state (`currentVerseIndex`, `currentLanguage`), the
preference store (`localStorage`) and the event handlers that change the state.

Conventions of the embedding.

* A JavaScript `Date` is represented by what the code reads from it: `getFullYear()`,
  `getMonth()` (0 = January, 11 = December) and `getDate()`.
* A JavaScript number that holds a verse index is a `JSNumber`: an integer or `NaN`
  (`parseInt` is the only producer of `NaN` in the program).
* The document is represented by the fields of `App` that the handlers write; the global
  `verses` array and the clock (`new Date()`) are explicit arguments.
* An exception that escapes a function is an `Except.error` carrying the state at the
  throw; a handler records it in `uncaught`. What `querySelector` makes of a selector
  built from a key with a quote, a backslash or a line break is the argument `css`.
-/

namespace Thiruppavai

/-! ## Dates -/

/-- The three readings the program takes from a `Date` object. -/
structure JSDate where
  year : Int
  month : Int
  day : Int
deriving DecidableEq, Repr

/-- Gregorian leap years, as used by the `Date` object. -/
def isLeapYear (y : Int) : Bool :=
  (y % 4 == 0 && y % 100 != 0) || y % 400 == 0

/-- Number of days of month `m` (0-indexed) in year `y`; 0 for a month index outside 0..11. -/
def daysInMonth (y m : Int) : Int :=
  if m = 1 then (if isLeapYear y then 29 else 28)
  else if m = 3 ∨ m = 5 ∨ m = 8 ∨ m = 10 then 30
  else if 0 ≤ m ∧ m ≤ 11 then 31
  else 0

/-- A valid calendar date: what a (valid) `Date` object can report. -/
def validDate (d : JSDate) : Prop :=
  0 ≤ d.month ∧ d.month ≤ 11 ∧ 1 ≤ d.day ∧ d.day ≤ daysInMonth d.year d.month

instance (d : JSDate) : Decidable (validDate d) := by
  unfold validDate; infer_instance

/-- The Margazhi period: December 16-31 and January 1-14. -/
def inPeriod (d : JSDate) : Prop :=
  (d.month = 11 ∧ 16 ≤ d.day ∧ d.day ≤ 31) ∨ (d.month = 0 ∧ 1 ≤ d.day ∧ d.day ≤ 14)

instance (d : JSDate) : Decidable (inPeriod d) := by
  unfold inPeriod; infer_instance

/-- Function `getMargazhiDay(date)`: day number in the period, or `none` for `null`. -/
def getMargazhiDay (date : JSDate) : Option Int :=
  let _year := date.year
  let month := date.month
  let day := date.day
  if month = 11 ∧ day ≥ 16 then
    some (day - 15)
  else if month = 0 ∧ day ≤ 14 then
    some (16 + day)
  else
    none

/-- English month names of `toLocaleDateString` with `month: long`. -/
def monthName (m : Int) : String :=
  match m with
  | 0 => "January" | 1 => "February" | 2 => "March" | 3 => "April"
  | 4 => "May" | 5 => "June" | 6 => "July" | 7 => "August"
  | 8 => "September" | 9 => "October" | 10 => "November" | 11 => "December"
  | _ => "Invalid Date"

/-- Function `formatDate(date)`: the `en-US` long form, e.g. `December 16, 2024`. -/
def formatDate (date : JSDate) : String :=
  monthName date.month ++ " " ++ toString date.day ++ ", " ++ toString date.year

/-! ## JavaScript numbers that hold a verse index -/

/-- A JavaScript number restricted to what `currentVerseIndex` can hold: an integer or `NaN`. -/
inductive JSNumber where
  | nan : JSNumber
  | int (v : Int) : JSNumber
deriving DecidableEq, Repr

namespace JSNumber

/-- Operator `a < b`: false as soon as one side is `NaN`. -/
def lt : JSNumber → JSNumber → Bool
  | int a, int b => decide (a < b)
  | _, _ => false

/-- Operator `a > b`. -/
def gt (a b : JSNumber) : Bool := lt b a

/-- Operator `a >= b`: false as soon as one side is `NaN`. -/
def ge : JSNumber → JSNumber → Bool
  | int a, int b => decide (b ≤ a)
  | _, _ => false

/-- Operator `a === b` on numbers: `NaN` is not equal to anything. -/
def strictEq : JSNumber → JSNumber → Bool
  | int a, int b => decide (a = b)
  | _, _ => false

/-- Postfix `x--`: the stored value after the decrement. -/
def dec : JSNumber → JSNumber
  | int a => int (a - 1)
  | nan => nan

/-- Postfix `x++`: the stored value after the increment. -/
def inc : JSNumber → JSNumber
  | int a => int (a + 1)
  | nan => nan

end JSNumber

/-! ## `parseInt` with no radix argument -/

/-- White space and line terminators skipped at the start of the input of `parseInt`. -/
def isWhiteSpace (c : Char) : Bool :=
  let n := c.toNat
  n = 9 || n = 10 || n = 11 || n = 12 || n = 13 || n = 32 || n = 160 || n = 5760
    || (8192 ≤ n && n ≤ 8202) || n = 8232 || n = 8233 || n = 8239 || n = 8287
    || n = 12288 || n = 65279

/-- Value of a character read as a digit: `0-9`, then `a-z` or `A-Z` for 10..35. -/
def digitValue (c : Char) : Option Nat :=
  let n := c.toNat
  if 48 ≤ n ∧ n ≤ 57 then some (n - 48)
  else if 97 ≤ n ∧ n ≤ 122 then some (n - 87)
  else if 65 ≤ n ∧ n ≤ 90 then some (n - 55)
  else none

/-- The longest prefix of radix-`R` digits, as digit values. -/
def takeDigits (R : Nat) : List Char → List Nat
  | [] => []
  | c :: cs =>
    match digitValue c with
    | some v => if v < R then v :: takeDigits R cs else []
    | none => []

/-- Integer denoted by a list of radix-`R` digit values, most significant first. -/
def digitsValue (R : Nat) (ds : List Nat) : Nat :=
  ds.foldl (fun acc v => acc * R + v) 0

/-- Removes one leading `+` or `-`. -/
def dropSign : List Char → List Char
  | [] => []
  | c :: cs => if c.toNat = 43 ∨ c.toNat = 45 then cs else c :: cs

/-- Whether the text starts with `0x` or `0X`. -/
def startsWithHex : List Char → Bool
  | a :: b :: _ => a.toNat = 48 && (b.toNat = 120 || b.toNat = 88)
  | _ => false

/-- Built-in `parseInt(string)`: leading white space is skipped, an optional sign and an optional
`0x` prefix are read, then the longest run of digits; `NaN` when there is no digit.
The integer is kept exactly (rounding of doubles beyond 2^53 is outside the model). -/
def parseInt (s : String) : JSNumber :=
  let trimmed := s.data.dropWhile isWhiteSpace
  let sign : Int :=
    match trimmed with
    | c :: _ => if c.toNat = 45 then -1 else 1
    | [] => 1
  let unsigned := dropSign trimmed
  let R : Nat := if startsWithHex unsigned then 16 else 10
  let body := if startsWithHex unsigned then unsigned.drop 2 else unsigned
  let Z := takeDigits R body
  if Z.isEmpty then JSNumber.nan
  else JSNumber.int (sign * (digitsValue R Z : Int))

/-! ## Preference store -/

/-- The `localStorage` object: the stored key/value pairs. The store is taken to be
available (reads and writes do not throw). -/
abbrev Storage := List (String × String)

/-- Method `localStorage.getItem(key)`: `none` stands for `null`. -/
def getItem (store : Storage) (key : String) : Option String :=
  match store with
  | [] => none
  | (k, v) :: rest => if k = key then some v else getItem rest key

/-- Method `localStorage.setItem(key, value)`: replaces the value of an existing key. -/
def setItem (store : Storage) (key value : String) : Storage :=
  match store with
  | [] => [(key, value)]
  | (k, v) :: rest => if k = key then (k, value) :: rest else (k, v) :: setItem rest key value

/-- Operator `a || b` with `a` a string or `null`: `null` and the empty string are falsy. -/
def orDefault (a : Option String) (b : String) : String :=
  match a with
  | some v => if v = "" then b else v
  | none => b

/-! ## Verses and application state -/

/-- One entry of the global `verses` array. -/
structure Verse where
  number : String
  tamil : String
  sanskrit : String
  english : String
  audio : Option String
  video : Option String
deriving DecidableEq, Repr

/-- Modelled from the spec: the supported language keys, which are also the
`data-language` values of the language sections of the page (the page markup is not
among the sources; `displayVerse` fills the sections `tamilVerse`, `sanskritVerse`
and `englishVerse`). -/
def supportedLanguages : List String := ["tamil", "sanskrit", "english"]

/-- The module-level variables, the preference store and the parts of the document the
handlers write. `shownVerse` stands for the content of the three verse sections and of
the media section (all derived from one verse record); `uncaught` collects exceptions
that escape a handler. -/
structure App where
  currentVerseIndex : JSNumber
  currentLanguage : String
  localStorage : Storage
  dateInfo : String
  activeSection : Option String
  shownVerse : Option Verse
  verseSelectValue : Option Int
  prevDisabled : Bool
  nextDisabled : Bool
  console : List String
  uncaught : List String
deriving DecidableEq, Repr

/-- Module initialisation (lines 3-4): `currentVerseIndex = 0` and
`currentLanguage = localStorage.getItem('selectedLanguage') || 'english'`,
before any handler has touched the document. -/
def initialApp (store : Storage) : App :=
  { currentVerseIndex := JSNumber.int 0
    currentLanguage := orDefault (getItem store "selectedLanguage") "english"
    localStorage := store
    dateInfo := ""
    activeSection := none
    shownVerse := none
    verseSelectValue := none
    prevDisabled := false
    nextDisabled := false
    console := []
    uncaught := [] }

/-- Function `updateDateInfo(text)`. -/
def updateDateInfo (text : String) (s : App) : App :=
  { s with dateInfo := text }

/-- Function `setDefaultVerse()`, with `today` the value of `new Date()`. -/
def setDefaultVerse (today : JSDate) (s : App) : App :=
  let margazhiDay := getMargazhiDay today
  match margazhiDay with
  | some d =>
    let s1 := { s with currentVerseIndex := JSNumber.int (d - 1) }
    updateDateInfo ("Margazhi Day " ++ toString d ++ " - " ++ formatDate today) s1
  | none =>
    let s1 := { s with currentVerseIndex := JSNumber.int 0 }
    updateDateInfo ("Outside Margazhi period - " ++ formatDate today) s1

/-- Outcome of `document.querySelector` on the attribute selector that
`updateLanguageDisplay` builds from a language key: the selector is rejected with a
`SyntaxError`, or it selects nothing (`null`), or it selects the section of a language. -/
inductive QueryResult where
  | syntaxError : QueryResult
  | noMatch : QueryResult
  | found (language : String) : QueryResult
deriving DecidableEq, Repr

/-- A key that is copied literally into the double-quoted string of the selector: it has
no double quote (34), no backslash (92) and no line break (10, 12, 13). -/
def plainKey (key : String) : Bool :=
  key.data.all (fun c =>
    c.toNat != 34 && c.toNat != 92 && c.toNat != 10 && c.toNat != 12 && c.toNat != 13)

/-- Modelled from the spec: the outcome of `document.querySelector` on the selector
built from `key`, in a page whose elements with a `data-language` attribute are the
sections of the supported languages (the page markup is not among the sources). For a
plain key the selector is well formed and selects the section with exactly that value,
if there is one. For any other key the selector is whatever the CSS grammar makes of
the text (often malformed, as with a lone double quote); that reading is the argument
`css`. -/
def querySection (css : String → QueryResult) (key : String) : QueryResult :=
  if plainKey key then
    (if key ∈ supportedLanguages then QueryResult.found key else QueryResult.noMatch)
  else
    css key

/-- A reading of the keys that are not plain in which every such selector is rejected;
it is the browser's answer for a key with a single double quote in the middle. -/
def rejectingCss : String → QueryResult :=
  fun _ => QueryResult.syntaxError

/-- A language key with a double quote in the middle: `fr`, a double quote, `ench`. -/
def quotedKey : String :=
  String.mk [Char.ofNat 102, Char.ofNat 114, Char.ofNat 34, Char.ofNat 101, Char.ofNat 110,
    Char.ofNat 99, Char.ofNat 104]

/-- The state a call leaves behind, whether it returned (`ok`) or threw (`error`). -/
def afterCall (r : Except App App) : App :=
  match r with
  | Except.ok s => s
  | Except.error s => s

/-- Function `updateLanguageDisplay()`: every section loses `active`, then the section
that `querySelector` finds for `currentLanguage` gets it, when there is one. When
`querySelector` rejects the selector the exception escapes the function: the result is
`error`, carrying the state at the throw. The function writes no module variable and
not the preference store. -/
def updateLanguageDisplay (css : String → QueryResult) (s : App) : Except App App :=
  let s1 := { s with activeSection := none }
  match querySection css s1.currentLanguage with
  | QueryResult.syntaxError =>
    Except.error { s1 with uncaught := s1.uncaught ++ ["SyntaxError: not a valid selector"] }
  | QueryResult.noMatch => Except.ok s1
  | QueryResult.found language => Except.ok { s1 with activeSection := some language }

/-- Function `initializeLanguageSelector()`: shows `currentLanguage`; the variable is only
read. It throws when `updateLanguageDisplay` does. -/
def initializeLanguageSelector (css : String → QueryResult) (s : App) : Except App App :=
  updateLanguageDisplay css s

/-- Function `handleLanguageChange(event)`, with `value` the `event.target.value`. Both
assignments come before the call of `updateLanguageDisplay`, the last statement; an
exception of that call escapes the handler and is recorded in `uncaught`. -/
def handleLanguageChange (css : String → QueryResult) (value : String) (s : App) : App :=
  let s1 := { s with currentLanguage := value }
  let s2 := { s1 with localStorage := setItem s1.localStorage "selectedLanguage" s1.currentLanguage }
  afterCall (updateLanguageDisplay css s2)

/-- Function `updateNavigationButtons()`: reads the global index, not the argument of `displayVerse`. -/
def updateNavigationButtons (verses : List Verse) (s : App) : App :=
  { s with
    prevDisabled := s.currentVerseIndex.strictEq (JSNumber.int 0)
    nextDisabled := s.currentVerseIndex.strictEq (JSNumber.int ((verses.length : Int) - 1)) }

/-- Function `displayVerse(index)`. The guard logs `Invalid verse index` and returns. Past the
guard `verses[index]` is read: for `NaN` (which passes both comparisons) it is
`undefined`, and reading `verse.tamil` throws before the document is touched. -/
def displayVerse (verses : List Verse) (index : JSNumber) (s : App) : App :=
  if index.lt (JSNumber.int 0) || index.ge (JSNumber.int (verses.length : Int)) then
    { s with console := s.console ++ ["Invalid verse index"] }
  else
    match index with
    | JSNumber.nan =>
      { s with uncaught := s.uncaught ++ ["TypeError: verse is undefined"] }
    | JSNumber.int i =>
      match verses.get? i.toNat with
      | none =>
        { s with uncaught := s.uncaught ++ ["TypeError: verse is undefined"] }
      | some verse =>
        let s1 := { s with shownVerse := some verse, verseSelectValue := some i }
        updateNavigationButtons verses s1

/-- Function `goToPreviousVerse()`. -/
def goToPreviousVerse (verses : List Verse) (s : App) : App :=
  if s.currentVerseIndex.gt (JSNumber.int 0) then
    let s1 := { s with currentVerseIndex := s.currentVerseIndex.dec }
    displayVerse verses s1.currentVerseIndex s1
  else
    s

/-- Function `goToNextVerse()`. -/
def goToNextVerse (verses : List Verse) (s : App) : App :=
  if s.currentVerseIndex.lt (JSNumber.int ((verses.length : Int) - 1)) then
    let s1 := { s with currentVerseIndex := s.currentVerseIndex.inc }
    displayVerse verses s1.currentVerseIndex s1
  else
    s

/-- Function `goToTodayVerse()`, with `today` the value of `new Date()`. -/
def goToTodayVerse (verses : List Verse) (today : JSDate) (s : App) : App :=
  let margazhiDay := getMargazhiDay today
  let s1 :=
    match margazhiDay with
    | some d => { s with currentVerseIndex := JSNumber.int (d - 1) }
    | none => { s with currentVerseIndex := JSNumber.int 0 }
  displayVerse verses s1.currentVerseIndex s1

/-- Function `handleVerseSelect(event)`, with `value` the `event.target.value`. -/
def handleVerseSelect (verses : List Verse) (value : String) (s : App) : App :=
  let s1 := { s with currentVerseIndex := parseInt value }
  displayVerse verses s1.currentVerseIndex s1

/-- The `DOMContentLoaded` handler: language selector, default verse, first display
(`initializeVerseSelector` and `setupEventListeners` write none of the fields of `App`).
When `initializeLanguageSelector` throws, the handler stops there: `setDefaultVerse` and
`displayVerse` are not reached. -/
def onDOMContentLoaded (css : String → QueryResult) (verses : List Verse) (today : JSDate)
    (s : App) : App :=
  match initializeLanguageSelector css s with
  | Except.error s1 => s1
  | Except.ok s1 =>
    let s2 := setDefaultVerse today s1
    displayVerse verses s2.currentVerseIndex s2

/-- A new session: module initialisation from the preference store, then the
`DOMContentLoaded` handler. -/
def startSession (css : String → QueryResult) (verses : List Verse) (today : JSDate)
    (store : Storage) : App :=
  onDOMContentLoaded css verses today (initialApp store)

/-- The index invariant of the navigation state: an integer in `[0, N-1]`. -/
def validIndex (verses : List Verse) (s : App) : Prop :=
  match s.currentVerseIndex with
  | JSNumber.int i => 0 ≤ i ∧ i < (verses.length : Int)
  | JSNumber.nan => False

instance (verses : List Verse) (s : App) : Decidable (validIndex verses s) := by
  unfold validIndex
  cases s.currentVerseIndex <;> infer_instance

/-- The events wired by `setupEventListeners`: the three buttons, the two selectors and
the arrow keys; `today` carries the value of `new Date()` at the click. -/
inductive Event where
  | prevClick
  | nextClick
  | todayClick (today : JSDate)
  | verseSelectChange (value : String)
  | languageSelectChange (value : String)
  | keyArrowLeft
  | keyArrowRight
deriving DecidableEq, Repr

/-- The listener that `setupEventListeners` attaches to each event. -/
def handleEvent (css : String → QueryResult) (verses : List Verse) (e : Event) (s : App) :
    App :=
  match e with
  | Event.prevClick => goToPreviousVerse verses s
  | Event.nextClick => goToNextVerse verses s
  | Event.todayClick today => goToTodayVerse verses today s
  | Event.verseSelectChange value => handleVerseSelect verses value s
  | Event.languageSelectChange value => handleLanguageChange css value s
  | Event.keyArrowLeft => goToPreviousVerse verses s
  | Event.keyArrowRight => goToNextVerse verses s

/-- Events are handled one at a time, each to completion. -/
def runEvents (css : String → QueryResult) (verses : List Verse) (events : List Event)
    (s : App) : App :=
  events.foldl (fun acc e => handleEvent css verses e acc) s

/-- Events as the page produces them: the clock reports a valid date and the verse
selector reports the value of one of its options, the indices `0 .. N-1` written by
`initializeVerseSelector`. -/
def fromPage (verses : List Verse) (e : Event) : Prop :=
  match e with
  | Event.todayClick today => validDate today
  | Event.verseSelectChange value =>
    match parseInt value with
    | JSNumber.int k => 0 ≤ k ∧ k < (verses.length : Int)
    | JSNumber.nan => False
  | _ => True

instance (verses : List Verse) (e : Event) : Decidable (fromPage verses e) := by
  cases e with
  | verseSelectChange value =>
    unfold fromPage
    dsimp only
    cases parseInt value <;> infer_instance
  | todayClick today => unfold fromPage; infer_instance
  | prevClick => unfold fromPage; infer_instance
  | nextClick => unfold fromPage; infer_instance
  | languageSelectChange value => unfold fromPage; infer_instance
  | keyArrowLeft => unfold fromPage; infer_instance
  | keyArrowRight => unfold fromPage; infer_instance

/-- A verse record with the given label and no text or media. -/
def blankVerse (label : String) : Verse :=
  { number := label, tamil := "", sanskrit := "", english := "", audio := none, video := none }

/-- A three-verse list for concrete runs. -/
def threeVerses : List Verse := [blankVerse "1", blankVerse "2", blankVerse "3"]

/-- A thirty-verse list, the length of the Thiruppavai. -/
def thirtyVerses : List Verse := (List.range 30).map (fun n => blankVerse (toString (n + 1)))

/-- An application state with the given verse index and nothing displayed yet. -/
def appAt (i : Int) : App :=
  { initialApp [] with currentVerseIndex := JSNumber.int i }

/-! ## Helper lemmas -/

theorem daysInMonth_le (y m : Int) : daysInMonth y m ≤ 31 := by
  unfold daysInMonth
  split_ifs <;> omega

theorem getMargazhiDay_eq_none_of_not_inPeriod (d : JSDate) (hv : validDate d)
    (h : ¬ inPeriod d) : getMargazhiDay d = none := by
  have hle := daysInMonth_le d.year d.month
  obtain ⟨_, _, h1, h2⟩ := hv
  simp only [inPeriod, not_or, not_and_or] at h
  simp only [getMargazhiDay]
  split_ifs with ha hb
  · omega
  · omega
  · rfl

theorem getMargazhiDay_of_inPeriod (d : JSDate) (h : inPeriod d) :
    ∃ n : Int, getMargazhiDay d = some n ∧ 1 ≤ n ∧ n ≤ 30 := by
  simp only [getMargazhiDay]
  rcases h with ⟨hm, h1, h2⟩ | ⟨hm, h1, h2⟩
  · refine ⟨d.day - 15, ?_, by omega, by omega⟩
    rw [if_pos ⟨hm, h1⟩]
  · refine ⟨16 + d.day, ?_, by omega, by omega⟩
    rw [if_neg (by omega), if_pos ⟨hm, h2⟩]

/-! ## The calendar rule -/

/-- C1: for every December date (month index 11) with day in [16, 31] `getMargazhiDay`
returns `day - 15`, a value in [1, 16]; for every January date (month index 0) with day
in [1, 14] it returns `16 + day`, a value in [17, 30]; the year plays no part. -/
theorem getMargazhiDay_in_period (d : JSDate) :
    (d.month = 11 → 16 ≤ d.day → d.day ≤ 31 →
      getMargazhiDay d = some (d.day - 15) ∧ 1 ≤ d.day - 15 ∧ d.day - 15 ≤ 16) ∧
    (d.month = 0 → 1 ≤ d.day → d.day ≤ 14 →
      getMargazhiDay d = some (16 + d.day) ∧ 17 ≤ 16 + d.day ∧ 16 + d.day ≤ 30) ∧
    (∀ y : Int, getMargazhiDay { d with year := y } = getMargazhiDay d) := by
  refine ⟨fun hm h1 h2 => ⟨?_, by omega, by omega⟩,
    fun hm h1 h2 => ⟨?_, by omega, by omega⟩, fun y => rfl⟩
  · simp only [getMargazhiDay]
    rw [if_pos ⟨hm, h1⟩]
  · simp only [getMargazhiDay]
    rw [if_neg (by omega), if_pos ⟨hm, h2⟩]

/-- Dec 16 gives 1, Dec 31 gives 16, Jan 1 gives 17 and Jan 14 gives 30. -/
theorem getMargazhiDay_in_period_witness :
    getMargazhiDay ⟨2024, 11, 16⟩ = some 1 ∧ getMargazhiDay ⟨2024, 11, 31⟩ = some 16 ∧
    getMargazhiDay ⟨2025, 0, 1⟩ = some 17 ∧ getMargazhiDay ⟨2025, 0, 14⟩ = some 30 :=
  ⟨((getMargazhiDay_in_period ⟨2024, 11, 16⟩).1 rfl (by decide) (by decide)).1,
   ((getMargazhiDay_in_period ⟨2024, 11, 31⟩).1 rfl (by decide) (by decide)).1,
   ((getMargazhiDay_in_period ⟨2025, 0, 1⟩).2.1 rfl (by decide) (by decide)).1,
   ((getMargazhiDay_in_period ⟨2025, 0, 14⟩).2.1 rfl (by decide) (by decide)).1⟩

/-- C2: for every valid calendar date outside December 16-31 and January 1-14 (a month
from February to November, December before the 16th, January after the 14th)
`getMargazhiDay` returns `null`; over valid dates the result is a number exactly when
the date lies in the period, and that number is in [1, 30]. -/
theorem getMargazhiDay_outside_period (d : JSDate) (hv : validDate d) :
    (¬ inPeriod d → getMargazhiDay d = none) ∧
    (1 ≤ d.month ∧ d.month ≤ 10 → getMargazhiDay d = none) ∧
    (d.month = 11 ∧ d.day < 16 → getMargazhiDay d = none) ∧
    (d.month = 0 ∧ d.day > 14 → getMargazhiDay d = none) ∧
    ((getMargazhiDay d).isSome = true ↔ inPeriod d) ∧
    (∀ n : Int, getMargazhiDay d = some n → 1 ≤ n ∧ n ≤ 30) := by
  have key := getMargazhiDay_eq_none_of_not_inPeriod d hv
  have iff : (getMargazhiDay d).isSome = true ↔ inPeriod d := by
    constructor
    · intro h
      by_contra hn
      rw [key hn] at h
      simp at h
    · intro h
      obtain ⟨n, hn, _⟩ := getMargazhiDay_of_inPeriod d h
      rw [hn]; rfl
  refine ⟨key, ?_, ?_, ?_, iff, ?_⟩
  · intro h
    apply key
    simp only [inPeriod]; omega
  · intro h
    apply key
    simp only [inPeriod]; omega
  · intro h
    apply key
    simp only [inPeriod]; omega
  · intro n hn
    have hp : inPeriod d := iff.mp (by rw [hn]; rfl)
    obtain ⟨m, hm, h1, h2⟩ := getMargazhiDay_of_inPeriod d hp
    rw [hn] at hm
    cases hm
    exact ⟨h1, h2⟩

/-- February 29 of a leap year, December 15 and January 15 are valid dates outside the
period; December 20 is a valid date inside it. -/
theorem getMargazhiDay_outside_period_witness :
    (validDate ⟨2024, 1, 29⟩ ∧ getMargazhiDay ⟨2024, 1, 29⟩ = none) ∧
    (validDate ⟨2024, 11, 15⟩ ∧ getMargazhiDay ⟨2024, 11, 15⟩ = none) ∧
    (validDate ⟨2025, 0, 15⟩ ∧ getMargazhiDay ⟨2025, 0, 15⟩ = none) ∧
    (validDate ⟨2024, 11, 20⟩ ∧ (getMargazhiDay ⟨2024, 11, 20⟩).isSome = true) :=
  ⟨⟨by decide, (getMargazhiDay_outside_period ⟨2024, 1, 29⟩ (by decide)).2.1 (by decide)⟩,
   ⟨by decide, (getMargazhiDay_outside_period ⟨2024, 11, 15⟩ (by decide)).2.2.1 (by decide)⟩,
   ⟨by decide, (getMargazhiDay_outside_period ⟨2025, 0, 15⟩ (by decide)).2.2.2.1 (by decide)⟩,
   ⟨by decide, (getMargazhiDay_outside_period ⟨2024, 11, 20⟩ (by decide)).2.2.2.2.1.mpr (by decide)⟩⟩

/-! ## Default verse -/

theorem displayVerse_currentVerseIndex (verses : List Verse) (index : JSNumber) (s : App) :
    (displayVerse verses index s).currentVerseIndex = s.currentVerseIndex := by
  unfold displayVerse
  split_ifs
  · rfl
  · cases index with
    | nan => rfl
    | int i => dsimp only; cases verses.get? i.toNat <;> rfl

theorem displayVerse_currentLanguage (verses : List Verse) (index : JSNumber) (s : App) :
    (displayVerse verses index s).currentLanguage = s.currentLanguage := by
  unfold displayVerse
  split_ifs
  · rfl
  · cases index with
    | nan => rfl
    | int i => dsimp only; cases verses.get? i.toNat <;> rfl

theorem displayVerse_localStorage (verses : List Verse) (index : JSNumber) (s : App) :
    (displayVerse verses index s).localStorage = s.localStorage := by
  unfold displayVerse
  split_ifs
  · rfl
  · cases index with
    | nan => rfl
    | int i => dsimp only; cases verses.get? i.toNat <;> rfl

theorem setDefaultVerse_currentVerseIndex (today : JSDate) (s : App) :
    (setDefaultVerse today s).currentVerseIndex =
      (match getMargazhiDay today with
       | some d => JSNumber.int (d - 1)
       | none => JSNumber.int 0) := by
  unfold setDefaultVerse
  cases getMargazhiDay today <;> rfl

theorem getMargazhiDay_bounds (d : JSDate) (hv : validDate d) (n : Int)
    (hn : getMargazhiDay d = some n) : 1 ≤ n ∧ n ≤ 30 := by
  have hp : inPeriod d := by
    by_contra hc
    rw [getMargazhiDay_eq_none_of_not_inPeriod d hv hc] at hn
    cases hn
  obtain ⟨m, hm, h1, h2⟩ := getMargazhiDay_of_inPeriod d hp
  rw [hn] at hm
  cases hm
  exact ⟨h1, h2⟩

/-- C3: for every date, `setDefaultVerse` sets `currentVerseIndex` to `d - 1` when
`getMargazhiDay` yields day number `d` and to 0 when it yields `null`, and
`goToTodayVerse` sets `currentVerseIndex` to the same value for the same date, whatever
the state (and the verse list) was before. -/
theorem setDefaultVerse_goToTodayVerse_index (verses : List Verse) (today : JSDate)
    (s t : App) :
    (setDefaultVerse today s).currentVerseIndex =
      (match getMargazhiDay today with
       | some d => JSNumber.int (d - 1)
       | none => JSNumber.int 0) ∧
    (goToTodayVerse verses today t).currentVerseIndex =
      (setDefaultVerse today s).currentVerseIndex := by
  unfold goToTodayVerse setDefaultVerse
  simp only [displayVerse_currentVerseIndex]
  cases getMargazhiDay today <;> exact ⟨rfl, rfl⟩

/-! ## Display of a verse -/

theorem displayVerse_of_inRange (verses : List Verse) (s : App) (i : Int)
    (h0 : 0 ≤ i) (h1 : i < (verses.length : Int)) :
    ∃ v : Verse, verses.get? i.toNat = some v ∧
      displayVerse verses (JSNumber.int i) s =
        updateNavigationButtons verses
          { s with shownVerse := some v, verseSelectValue := some i } := by
  have hlt : i.toNat < verses.length := by omega
  refine ⟨verses.get ⟨i.toNat, hlt⟩, List.get?_eq_get hlt, ?_⟩
  have hg : (JSNumber.lt (JSNumber.int i) (JSNumber.int 0)
      || JSNumber.ge (JSNumber.int i) (JSNumber.int (verses.length : Int))) = false := by
    simp only [JSNumber.lt, JSNumber.ge, Bool.or_eq_false_iff, decide_eq_false_iff_not]
    omega
  unfold displayVerse
  rw [hg]
  simp only [Bool.false_eq_true, if_false]
  rw [List.get?_eq_get hlt]

theorem displayVerse_of_outOfRange (verses : List Verse) (s : App) (i : Int)
    (h : i < 0 ∨ (verses.length : Int) ≤ i) :
    displayVerse verses (JSNumber.int i) s =
      { s with console := s.console ++ ["Invalid verse index"] } := by
  have hg : (JSNumber.lt (JSNumber.int i) (JSNumber.int 0)
      || JSNumber.ge (JSNumber.int i) (JSNumber.int (verses.length : Int))) = true := by
    simp only [JSNumber.lt, JSNumber.ge, Bool.or_eq_true, decide_eq_true_eq]
    exact h
  unfold displayVerse
  rw [hg]
  simp only [if_true]

theorem displayVerse_console_of_inRange (verses : List Verse) (s : App) (i : Int)
    (h0 : 0 ≤ i) (h1 : i < (verses.length : Int)) :
    (displayVerse verses (JSNumber.int i) s).console = s.console ∧
    (displayVerse verses (JSNumber.int i) s).uncaught = s.uncaught ∧
    (displayVerse verses (JSNumber.int i) s).shownVerse = verses.get? i.toNat ∧
    (displayVerse verses (JSNumber.int i) s).verseSelectValue = some i := by
  obtain ⟨v, hv, hd⟩ := displayVerse_of_inRange verses s i h0 h1
  rw [hd, hv]
  exact ⟨rfl, rfl, rfl, rfl⟩

/-! ## Navigation -/

theorem goToPreviousVerse_of_pos (verses : List Verse) (s : App) (i : Int)
    (hs : s.currentVerseIndex = JSNumber.int i) (h : 0 < i) :
    goToPreviousVerse verses s =
      displayVerse verses (JSNumber.int (i - 1))
        { s with currentVerseIndex := JSNumber.int (i - 1) } := by
  unfold goToPreviousVerse
  rw [hs]
  have hg : JSNumber.gt (JSNumber.int i) (JSNumber.int 0) = true := by
    simp only [JSNumber.gt, JSNumber.lt, decide_eq_true_eq]
    exact h
  rw [hg]
  rfl

theorem goToPreviousVerse_of_zero (verses : List Verse) (s : App)
    (hs : s.currentVerseIndex = JSNumber.int 0) :
    goToPreviousVerse verses s = s := by
  unfold goToPreviousVerse
  rw [hs]
  rfl

theorem goToNextVerse_of_lt (verses : List Verse) (s : App) (i : Int)
    (hs : s.currentVerseIndex = JSNumber.int i) (h : i < (verses.length : Int) - 1) :
    goToNextVerse verses s =
      displayVerse verses (JSNumber.int (i + 1))
        { s with currentVerseIndex := JSNumber.int (i + 1) } := by
  unfold goToNextVerse
  rw [hs]
  have hg : JSNumber.lt (JSNumber.int i) (JSNumber.int ((verses.length : Int) - 1)) = true := by
    simp only [JSNumber.lt, decide_eq_true_eq]
    exact h
  rw [hg]
  rfl

theorem goToNextVerse_of_ge (verses : List Verse) (s : App) (i : Int)
    (hs : s.currentVerseIndex = JSNumber.int i) (h : (verses.length : Int) - 1 ≤ i) :
    goToNextVerse verses s = s := by
  unfold goToNextVerse
  rw [hs]
  have hg : JSNumber.lt (JSNumber.int i) (JSNumber.int ((verses.length : Int) - 1)) = false := by
    simp only [JSNumber.lt, decide_eq_false_iff_not]
    omega
  rw [hg]
  rfl

/-- C4: for every verse list of length N and every index i with 0 <= i < N (so that
N >= 1), `goToPreviousVerse` leaves the index at i - 1 when i > 0 and changes nothing when i = 0,
`goToNextVerse` leaves the index at i + 1 when i < N - 1 and changes nothing when
i = N - 1, and neither reports an error or throws. -/
theorem navigation_step (verses : List Verse) (s : App) (i : Int)
    (hs : s.currentVerseIndex = JSNumber.int i)
    (h0 : 0 ≤ i) (h1 : i < (verses.length : Int)) :
    (0 < i → (goToPreviousVerse verses s).currentVerseIndex = JSNumber.int (i - 1)) ∧
    (i = 0 → goToPreviousVerse verses s = s) ∧
    (i < (verses.length : Int) - 1 →
      (goToNextVerse verses s).currentVerseIndex = JSNumber.int (i + 1)) ∧
    (i = (verses.length : Int) - 1 → goToNextVerse verses s = s) ∧
    (goToPreviousVerse verses s).console = s.console ∧
    (goToPreviousVerse verses s).uncaught = s.uncaught ∧
    (goToNextVerse verses s).console = s.console ∧
    (goToNextVerse verses s).uncaught = s.uncaught := by
  have hprev0 : i = 0 → goToPreviousVerse verses s = s := fun h =>
    goToPreviousVerse_of_zero verses s (by rw [hs, h])
  have hnextN : i = (verses.length : Int) - 1 → goToNextVerse verses s = s := fun h =>
    goToNextVerse_of_ge verses s i hs (by omega)
  have hprev : (goToPreviousVerse verses s).console = s.console ∧
      (goToPreviousVerse verses s).uncaught = s.uncaught := by
    rcases lt_or_ge 0 i with hp | hz
    · rw [goToPreviousVerse_of_pos verses s i hs hp]
      obtain ⟨a, b, _, _⟩ := displayVerse_console_of_inRange verses
        { s with currentVerseIndex := JSNumber.int (i - 1) } (i - 1) (by omega) (by omega)
      exact ⟨a, b⟩
    · rw [hprev0 (by omega)]
      exact ⟨rfl, rfl⟩
  have hnext : (goToNextVerse verses s).console = s.console ∧
      (goToNextVerse verses s).uncaught = s.uncaught := by
    rcases lt_or_ge i ((verses.length : Int) - 1) with hp | hz
    · rw [goToNextVerse_of_lt verses s i hs hp]
      obtain ⟨a, b, _, _⟩ := displayVerse_console_of_inRange verses
        { s with currentVerseIndex := JSNumber.int (i + 1) } (i + 1) (by omega) (by omega)
      exact ⟨a, b⟩
    · rw [hnextN (by omega)]
      exact ⟨rfl, rfl⟩
  refine ⟨fun hp => ?_, hprev0, fun hp => ?_, hnextN, hprev.1, hprev.2, hnext.1, hnext.2⟩
  · rw [goToPreviousVerse_of_pos verses s i hs hp, displayVerse_currentVerseIndex]
  · rw [goToNextVerse_of_lt verses s i hs hp, displayVerse_currentVerseIndex]

/-- With N = 3 and index 1: Previous gives 0, Next twice gives 2, Next again gives 2. -/
theorem navigation_step_witness :
    (goToPreviousVerse threeVerses (appAt 1)).currentVerseIndex = JSNumber.int (1 - 1) ∧
    (goToNextVerse threeVerses
      (goToPreviousVerse threeVerses (appAt 1))).currentVerseIndex = JSNumber.int (0 + 1) ∧
    (goToNextVerse threeVerses (goToNextVerse threeVerses
      (goToPreviousVerse threeVerses (appAt 1)))).currentVerseIndex = JSNumber.int (1 + 1) ∧
    goToNextVerse threeVerses (goToNextVerse threeVerses (goToNextVerse threeVerses
        (goToPreviousVerse threeVerses (appAt 1)))) =
      goToNextVerse threeVerses (goToNextVerse threeVerses
        (goToPreviousVerse threeVerses (appAt 1))) :=
  ⟨(navigation_step threeVerses (appAt 1) 1 (by decide) (by decide)
      (by decide)).1 (by decide),
   (navigation_step threeVerses (goToPreviousVerse threeVerses (appAt 1)) 0
      (by decide) (by decide) (by decide)).2.2.1 (by decide),
   (navigation_step threeVerses
      (goToNextVerse threeVerses (goToPreviousVerse threeVerses (appAt 1))) 1
      (by decide) (by decide) (by decide)).2.2.1 (by decide),
   (navigation_step threeVerses
      (goToNextVerse threeVerses (goToNextVerse threeVerses
        (goToPreviousVerse threeVerses (appAt 1)))) 2
      (by decide) (by decide) (by decide)).2.2.2.1 (by decide)⟩

/-- C7: for every verse list of length N and every interior index i (0 < i < N - 1),
`goToPreviousVerse` followed by `goToNextVerse` returns `currentVerseIndex` to i. -/
theorem previous_then_next (verses : List Verse) (s : App) (i : Int)
    (hs : s.currentVerseIndex = JSNumber.int i)
    (h0 : 0 < i) (h1 : i < (verses.length : Int) - 1) :
    (goToNextVerse verses (goToPreviousVerse verses s)).currentVerseIndex =
      JSNumber.int i := by
  have hp : (goToPreviousVerse verses s).currentVerseIndex = JSNumber.int (i - 1) := by
    rw [goToPreviousVerse_of_pos verses s i hs h0, displayVerse_currentVerseIndex]
  rw [goToNextVerse_of_lt verses _ (i - 1) hp (by omega), displayVerse_currentVerseIndex]
  show JSNumber.int (i - 1 + 1) = JSNumber.int i
  rw [Int.sub_add_cancel]

/-- With N = 3, from index 1 Previous then Next returns to index 1. -/
theorem previous_then_next_witness :
    (appAt 1).currentVerseIndex = JSNumber.int 1 ∧ (0 : Int) < 1 ∧
    (1 : Int) < (threeVerses.length : Int) - 1 ∧
    (goToNextVerse threeVerses (goToPreviousVerse threeVerses (appAt 1))).currentVerseIndex =
      JSNumber.int 1 :=
  ⟨by decide, by decide, by decide,
   previous_then_next threeVerses (appAt 1) 1 (by decide) (by decide) (by decide)⟩

/-! ## Selecting a verse -/

/-- C5, as stated, fails: with three verses and index 1, the selector value `7` is
reported as `Invalid verse index` but `currentVerseIndex` becomes 7; the value `abc`
parses to `NaN`, passes the guard of `displayVerse` without a report, is stored in
`currentVerseIndex`, and the handler throws. -/
theorem handleVerseSelect_overwrites_index :
    (parseInt "7" = JSNumber.int 7 ∧ ¬ ((7 : Int) < (threeVerses.length : Int)) ∧
      (appAt 1).currentVerseIndex = JSNumber.int 1 ∧
      (handleVerseSelect threeVerses "7" (appAt 1)).console = ["Invalid verse index"] ∧
      (handleVerseSelect threeVerses "7" (appAt 1)).currentVerseIndex = JSNumber.int 7 ∧
      (handleVerseSelect threeVerses "7" (appAt 1)).currentVerseIndex ≠
        (appAt 1).currentVerseIndex) ∧
    (parseInt "abc" = JSNumber.nan ∧
      (handleVerseSelect threeVerses "abc" (appAt 1)).console = [] ∧
      (handleVerseSelect threeVerses "abc" (appAt 1)).uncaught =
        ["TypeError: verse is undefined"] ∧
      (handleVerseSelect threeVerses "abc" (appAt 1)).currentVerseIndex ≠
        (appAt 1).currentVerseIndex) := by
  decide

/-- C5 (amended): for every verse list of length N and every selector value that parses
to an integer k, `handleVerseSelect` stores k in `currentVerseIndex`; when 0 <= k < N
verse k is displayed and nothing is reported; when k is outside [0, N-1] `displayVerse`
reports `Invalid verse index` and nothing else changes (the document is as before, while
`currentVerseIndex` holds k). -/
theorem handleVerseSelect_integer (verses : List Verse) (value : String) (s : App) (k : Int)
    (hk : parseInt value = JSNumber.int k) :
    (handleVerseSelect verses value s).currentVerseIndex = JSNumber.int k ∧
    (0 ≤ k ∧ k < (verses.length : Int) →
      (handleVerseSelect verses value s).shownVerse = verses.get? k.toNat ∧
      (handleVerseSelect verses value s).verseSelectValue = some k ∧
      (handleVerseSelect verses value s).console = s.console ∧
      (handleVerseSelect verses value s).uncaught = s.uncaught) ∧
    (k < 0 ∨ (verses.length : Int) ≤ k →
      handleVerseSelect verses value s =
        { s with currentVerseIndex := JSNumber.int k
                 console := s.console ++ ["Invalid verse index"] }) := by
  have hu : handleVerseSelect verses value s =
      displayVerse verses (JSNumber.int k) { s with currentVerseIndex := JSNumber.int k } := by
    unfold handleVerseSelect
    rw [hk]
  refine ⟨?_, fun h => ?_, fun h => ?_⟩
  · rw [hu, displayVerse_currentVerseIndex]
  · rw [hu]
    obtain ⟨a, b, c, d⟩ := displayVerse_console_of_inRange verses
      { s with currentVerseIndex := JSNumber.int k } k h.1 h.2
    exact ⟨c, d, a, b⟩
  · rw [hu, displayVerse_of_outOfRange verses _ k h]

/-- With three verses: the value `2` selects verse index 2 without a report, the value
`7` is reported and leaves the document as it was. -/
theorem handleVerseSelect_integer_witness :
    (parseInt "2" = JSNumber.int 2 ∧
      (handleVerseSelect threeVerses "2" (appAt 1)).currentVerseIndex = JSNumber.int 2 ∧
      (handleVerseSelect threeVerses "2" (appAt 1)).console = (appAt 1).console) ∧
    (parseInt "7" = JSNumber.int 7 ∧
      handleVerseSelect threeVerses "7" (appAt 1) =
        { appAt 1 with currentVerseIndex := JSNumber.int 7
                       console := (appAt 1).console ++ ["Invalid verse index"] }) :=
  ⟨⟨by decide,
    (handleVerseSelect_integer threeVerses "2" (appAt 1) 2 (by decide)).1,
    ((handleVerseSelect_integer threeVerses "2" (appAt 1) 2 (by decide)).2.1
      ⟨by decide, by decide⟩).2.2.1⟩,
   ⟨by decide,
    (handleVerseSelect_integer threeVerses "7" (appAt 1) 7 (by decide)).2.2
      (Or.inr (by decide))⟩⟩

/-! ## The index invariant -/

theorem validIndex_of_eq (verses : List Verse) (s : App) (i : Int)
    (hs : s.currentVerseIndex = JSNumber.int i) (h0 : 0 ≤ i)
    (h1 : i < (verses.length : Int)) : validIndex verses s := by
  unfold validIndex
  rw [hs]
  exact ⟨h0, h1⟩

theorem exists_of_validIndex (verses : List Verse) (s : App) (h : validIndex verses s) :
    ∃ i : Int, s.currentVerseIndex = JSNumber.int i ∧ 0 ≤ i ∧ i < (verses.length : Int) := by
  unfold validIndex at h
  cases hc : s.currentVerseIndex with
  | nan => rw [hc] at h; exact h.elim
  | int i => rw [hc] at h; exact ⟨i, rfl, h.1, h.2⟩

theorem validIndex_congr (verses : List Verse) (s t : App)
    (h : t.currentVerseIndex = s.currentVerseIndex) (hs : validIndex verses s) :
    validIndex verses t := by
  unfold validIndex at *
  rw [h]
  exact hs

theorem updateLanguageDisplay_currentVerseIndex (css : String → QueryResult) (s : App) :
    (afterCall (updateLanguageDisplay css s)).currentVerseIndex = s.currentVerseIndex := by
  unfold updateLanguageDisplay
  dsimp only
  cases querySection css s.currentLanguage <;> rfl

theorem updateLanguageDisplay_currentLanguage (css : String → QueryResult) (s : App) :
    (afterCall (updateLanguageDisplay css s)).currentLanguage = s.currentLanguage := by
  unfold updateLanguageDisplay
  dsimp only
  cases querySection css s.currentLanguage <;> rfl

theorem updateLanguageDisplay_localStorage (css : String → QueryResult) (s : App) :
    (afterCall (updateLanguageDisplay css s)).localStorage = s.localStorage := by
  unfold updateLanguageDisplay
  dsimp only
  cases querySection css s.currentLanguage <;> rfl

theorem setDefaultVerse_validIndex (verses : List Verse) (today : JSDate) (s : App)
    (hN : 30 ≤ verses.length) (hv : validDate today) :
    validIndex verses (setDefaultVerse today s) := by
  have hidx := (setDefaultVerse_currentVerseIndex today s)
  cases hd : getMargazhiDay today with
  | none =>
    rw [hd] at hidx
    exact validIndex_of_eq verses _ 0 hidx (le_refl 0) (by omega)
  | some d =>
    rw [hd] at hidx
    have hr := (getMargazhiDay_bounds today hv d hd)
    exact validIndex_of_eq verses _ (d - 1) hidx (by omega) (by omega)

theorem goToTodayVerse_validIndex (verses : List Verse) (today : JSDate) (s : App)
    (hN : 30 ≤ verses.length) (hv : validDate today) :
    validIndex verses (goToTodayVerse verses today s) := by
  refine validIndex_congr verses (setDefaultVerse today s) _ ?_
    (setDefaultVerse_validIndex verses today s hN hv)
  rw [setDefaultVerse_currentVerseIndex]
  unfold goToTodayVerse
  rw [displayVerse_currentVerseIndex]
  cases getMargazhiDay today <;> rfl

theorem goToPreviousVerse_validIndex (verses : List Verse) (s : App)
    (h : validIndex verses s) : validIndex verses (goToPreviousVerse verses s) := by
  obtain ⟨i, hs, h0, h1⟩ := exists_of_validIndex verses s h
  rcases lt_or_ge 0 i with hp | hz
  · refine validIndex_of_eq verses _ (i - 1) ?_ (by omega) (by omega)
    rw [goToPreviousVerse_of_pos verses s i hs hp, displayVerse_currentVerseIndex]
  · have hi : i = 0 := by omega
    rw [goToPreviousVerse_of_zero verses s (by rw [hs, hi])]
    exact h

theorem goToNextVerse_validIndex (verses : List Verse) (s : App)
    (h : validIndex verses s) : validIndex verses (goToNextVerse verses s) := by
  obtain ⟨i, hs, h0, h1⟩ := exists_of_validIndex verses s h
  rcases lt_or_ge i ((verses.length : Int) - 1) with hp | hz
  · refine validIndex_of_eq verses _ (i + 1) ?_ (by omega) (by omega)
    rw [goToNextVerse_of_lt verses s i hs hp, displayVerse_currentVerseIndex]
  · rw [goToNextVerse_of_ge verses s i hs hz]
    exact h

theorem handleLanguageChange_currentVerseIndex (css : String → QueryResult) (value : String)
    (s : App) :
    (handleLanguageChange css value s).currentVerseIndex = s.currentVerseIndex := by
  unfold handleLanguageChange
  rw [updateLanguageDisplay_currentVerseIndex]

theorem handleVerseSelect_validIndex (verses : List Verse) (value : String) (s : App)
    (k : Int) (hk : parseInt value = JSNumber.int k) (h0 : 0 ≤ k)
    (h1 : k < (verses.length : Int)) :
    validIndex verses (handleVerseSelect verses value s) := by
  refine validIndex_of_eq verses _ k ?_ h0 h1
  unfold handleVerseSelect
  rw [displayVerse_currentVerseIndex, hk]

theorem handleEvent_validIndex (css : String → QueryResult) (verses : List Verse)
    (e : Event) (s : App)
    (hN : 30 ≤ verses.length) (he : fromPage verses e) (h : validIndex verses s) :
    validIndex verses (handleEvent css verses e s) := by
  cases e with
  | prevClick => exact goToPreviousVerse_validIndex verses s h
  | nextClick => exact goToNextVerse_validIndex verses s h
  | todayClick today => exact goToTodayVerse_validIndex verses today s hN he
  | verseSelectChange value =>
    unfold fromPage at he
    dsimp only at he
    cases hp : parseInt value with
    | nan => rw [hp] at he; exact he.elim
    | int k =>
      rw [hp] at he
      exact handleVerseSelect_validIndex verses value s k hp he.1 he.2
  | languageSelectChange value =>
    exact validIndex_congr verses s _ (handleLanguageChange_currentVerseIndex css value s) h
  | keyArrowLeft => exact goToPreviousVerse_validIndex verses s h
  | keyArrowRight => exact goToNextVerse_validIndex verses s h

theorem runEvents_validIndex (css : String → QueryResult) (verses : List Verse)
    (events : List Event) (hN : 30 ≤ verses.length) :
    ∀ s : App, (∀ e ∈ events, fromPage verses e) → validIndex verses s →
      validIndex verses (runEvents css verses events s) := by
  induction events with
  | nil => intro s _ h; exact h
  | cons e rest ih =>
    intro s hall h
    have hstep := handleEvent_validIndex css verses e s hN
      (hall e (List.mem_cons_self e rest)) h
    exact ih (handleEvent css verses e s)
      (fun e2 he2 => hall e2 (List.mem_cons_of_mem e he2)) hstep

theorem startSession_validIndex (css : String → QueryResult) (verses : List Verse)
    (today : JSDate) (store : Storage)
    (hN : 30 ≤ verses.length) (hv : validDate today) :
    validIndex verses (startSession css verses today store) := by
  have hidx := updateLanguageDisplay_currentVerseIndex css (initialApp store)
  unfold startSession onDOMContentLoaded initializeLanguageSelector
  cases hr : updateLanguageDisplay css (initialApp store) with
  | error s1 =>
    rw [hr] at hidx
    exact validIndex_of_eq verses s1 0 hidx (le_refl 0) (by omega)
  | ok s1 =>
    refine validIndex_congr verses (setDefaultVerse today s1) _ ?_
      (setDefaultVerse_validIndex verses today s1 hN hv)
    rw [displayVerse_currentVerseIndex]

/-- C6, as stated, fails: with three verses `setDefaultVerse` and `goToTodayVerse` on
December 31 leave index 15; with thirty verses and a valid index, the selector value
`30` leaves index 30 and the value `abc` leaves `NaN`. -/
theorem invalid_index_reached :
    (validDate ⟨2024, 11, 31⟩ ∧ 1 ≤ threeVerses.length ∧
      (setDefaultVerse ⟨2024, 11, 31⟩ (appAt 0)).currentVerseIndex = JSNumber.int 15 ∧
      ¬ validIndex threeVerses (setDefaultVerse ⟨2024, 11, 31⟩ (appAt 0)) ∧
      validIndex threeVerses (appAt 0) ∧
      ¬ validIndex threeVerses (goToTodayVerse threeVerses ⟨2024, 11, 31⟩ (appAt 0))) ∧
    (thirtyVerses.length = 30 ∧ validIndex thirtyVerses (appAt 0) ∧
      (handleVerseSelect thirtyVerses "30" (appAt 0)).currentVerseIndex = JSNumber.int 30 ∧
      ¬ validIndex thirtyVerses (handleVerseSelect thirtyVerses "30" (appAt 0)) ∧
      ¬ validIndex thirtyVerses (handleVerseSelect thirtyVerses "abc" (appAt 0))) := by
  decide

/-- C6 (amended): for every verse list of length N >= 30 (one verse per day number of
the period) and every valid calendar date, 0 <= currentVerseIndex < N holds after
`setDefaultVerse` and at the end of the start-up handler, and it is preserved by
`goToPreviousVerse`, `goToNextVerse`, `goToTodayVerse`, `handleLanguageChange` (any key)
and by `handleVerseSelect` for a selector value that parses to an integer in [0, N-1],
as the options of the selector do; so every state reached from start-up by events of the
page has a valid index. -/
theorem index_invariant (verses : List Verse) (today : JSDate) (s : App)
    (hN : 30 ≤ verses.length) (hv : validDate today) :
    validIndex verses (setDefaultVerse today s) ∧
    (∀ (css : String → QueryResult) (store : Storage),
      validIndex verses (startSession css verses today store)) ∧
    (validIndex verses s →
      validIndex verses (goToPreviousVerse verses s) ∧
      validIndex verses (goToNextVerse verses s) ∧
      validIndex verses (goToTodayVerse verses today s) ∧
      (∀ (css : String → QueryResult) (lang : String),
        validIndex verses (handleLanguageChange css lang s)) ∧
      (∀ (value : String) (k : Int), parseInt value = JSNumber.int k → 0 ≤ k →
        k < (verses.length : Int) → validIndex verses (handleVerseSelect verses value s))) ∧
    (∀ (css : String → QueryResult) (store : Storage) (events : List Event),
      (∀ e ∈ events, fromPage verses e) →
      validIndex verses
        (runEvents css verses events (startSession css verses today store))) := by
  refine ⟨setDefaultVerse_validIndex verses today s hN hv,
    fun css store => startSession_validIndex css verses today store hN hv,
    fun h => ⟨goToPreviousVerse_validIndex verses s h, goToNextVerse_validIndex verses s h,
      goToTodayVerse_validIndex verses today s hN hv,
      fun css lang =>
        validIndex_congr verses s _ (handleLanguageChange_currentVerseIndex css lang s) h,
      fun value k hk h0 h1 => handleVerseSelect_validIndex verses value s k hk h0 h1⟩,
    fun css store events hall => runEvents_validIndex css verses events hN _ hall
      (startSession_validIndex css verses today store hN hv)⟩

/-- With thirty verses on December 31: start-up leaves a valid index (15), and so does a
run of page events from there. -/
theorem index_invariant_witness :
    30 ≤ thirtyVerses.length ∧ validDate ⟨2024, 11, 31⟩ ∧
    validIndex thirtyVerses (setDefaultVerse ⟨2024, 11, 31⟩ (appAt 0)) ∧
    validIndex thirtyVerses
      (runEvents rejectingCss thirtyVerses
        [Event.nextClick, Event.verseSelectChange "29", Event.keyArrowRight,
          Event.languageSelectChange "tamil", Event.prevClick]
        (startSession rejectingCss thirtyVerses ⟨2024, 11, 31⟩ [])) :=
  ⟨by decide, by decide,
   (index_invariant thirtyVerses ⟨2024, 11, 31⟩ (appAt 0) (by decide) (by decide)).1,
   (index_invariant thirtyVerses ⟨2024, 11, 31⟩ (appAt 0) (by decide) (by decide)).2.2.2
      rejectingCss []
      [Event.nextClick, Event.verseSelectChange "29", Event.keyArrowRight,
        Event.languageSelectChange "tamil", Event.prevClick] (by decide)⟩

/-! ## Language -/

theorem getItem_setItem_self (store : Storage) (key value : String) :
    getItem (setItem store key value) key = some value := by
  induction store with
  | nil => simp [setItem, getItem]
  | cons p rest ih =>
    obtain ⟨k, v⟩ := p
    unfold setItem
    split_ifs with h
    · simp [getItem, h]
    · simp [getItem, h, ih]

theorem getItem_setItem_of_ne (store : Storage) (key other value : String)
    (hne : other ≠ key) : getItem (setItem store key value) other = getItem store other := by
  induction store with
  | nil => simp [setItem, getItem, Ne.symm hne]
  | cons p rest ih =>
    obtain ⟨k, v⟩ := p
    unfold setItem
    split_ifs with h
    · have hk : k ≠ other := by rw [h]; exact Ne.symm hne
      simp [getItem, hk]
    · simp [getItem, ih]

theorem startSession_currentLanguage (css : String → QueryResult) (verses : List Verse)
    (today : JSDate) (store : Storage) :
    (startSession css verses today store).currentLanguage =
      orDefault (getItem store "selectedLanguage") "english" := by
  have hlang := updateLanguageDisplay_currentLanguage css (initialApp store)
  unfold startSession onDOMContentLoaded initializeLanguageSelector
  cases hr : updateLanguageDisplay css (initialApp store) with
  | error s1 =>
    rw [hr] at hlang
    exact hlang
  | ok s1 =>
    rw [hr] at hlang
    dsimp only
    rw [displayVerse_currentLanguage]
    unfold setDefaultVerse
    cases getMargazhiDay today <;> exact hlang

theorem handleLanguageChange_currentLanguage (css : String → QueryResult) (value : String)
    (s : App) : (handleLanguageChange css value s).currentLanguage = value := by
  unfold handleLanguageChange
  rw [updateLanguageDisplay_currentLanguage]

theorem handleLanguageChange_localStorage (css : String → QueryResult) (value : String)
    (s : App) :
    (handleLanguageChange css value s).localStorage =
      setItem s.localStorage "selectedLanguage" value := by
  unfold handleLanguageChange
  rw [updateLanguageDisplay_localStorage]

theorem handleLanguageChange_console (css : String → QueryResult) (value : String)
    (s : App) : (handleLanguageChange css value s).console = s.console := by
  unfold handleLanguageChange updateLanguageDisplay
  dsimp only
  cases querySection css value <;> rfl

theorem handleLanguageChange_uncaught (css : String → QueryResult) (value : String)
    (s : App) :
    (handleLanguageChange css value s).uncaught =
      (if querySection css value = QueryResult.syntaxError then
        s.uncaught ++ ["SyntaxError: not a valid selector"]
      else s.uncaught) := by
  unfold handleLanguageChange updateLanguageDisplay
  dsimp only
  cases querySection css value <;> rfl

theorem querySection_of_plainKey (css : String → QueryResult) (key : String)
    (h : plainKey key = true) : querySection css key ≠ QueryResult.syntaxError := by
  unfold querySection
  rw [if_pos h]
  split_ifs <;> exact fun hc => QueryResult.noConfusion hc

/-- With the key with a double quote stored, start-up stops in
`initializeLanguageSelector`: the language is that key, the index is still 0 and no
date line has been written. -/
theorem startSession_aborted :
    (startSession rejectingCss thirtyVerses ⟨2024, 11, 31⟩
      [("selectedLanguage", quotedKey)]).currentLanguage = quotedKey ∧
    (startSession rejectingCss thirtyVerses ⟨2024, 11, 31⟩
      [("selectedLanguage", quotedKey)]).currentVerseIndex = JSNumber.int 0 ∧
    (startSession rejectingCss thirtyVerses ⟨2024, 11, 31⟩
      [("selectedLanguage", quotedKey)]).dateInfo = "" ∧
    (startSession rejectingCss thirtyVerses ⟨2024, 11, 31⟩
      [("selectedLanguage", quotedKey)]).uncaught = ["SyntaxError: not a valid selector"] := by
  decide

/-- C8, as stated, fails: the key `french` is not a supported key, and
`handleLanguageChange` with it reports nothing, sets `currentLanguage` to `french` and
writes `french` to the preference store. -/
theorem handleLanguageChange_accepts_unsupported :
    "french" ∉ supportedLanguages ∧
    (initialApp []).currentLanguage = "english" ∧
    (handleLanguageChange rejectingCss "french" (initialApp [])).currentLanguage = "french" ∧
    getItem (handleLanguageChange rejectingCss "french" (initialApp [])).localStorage
      "selectedLanguage" = some "french" ∧
    getItem (initialApp []).localStorage "selectedLanguage" = none ∧
    (handleLanguageChange rejectingCss "french" (initialApp [])).console = [] ∧
    (handleLanguageChange rejectingCss "french" (initialApp [])).uncaught = [] := by
  decide

/-- C8 (amended): `handleLanguageChange` does not validate the key and has no
`unsupported language` condition: for every language key, supported or not, it sets
`currentLanguage` to the key and writes the key under `selectedLanguage` in the
preference store, logs nothing and leaves the verse index unchanged. For every key that
leaves the selector of `updateLanguageDisplay` well formed (every key without double
quote, backslash or line break) the handler ends without any error; for a key that makes
the selector malformed, the `SyntaxError` of `querySelector` escapes the handler after
both writes. -/
theorem handleLanguageChange_any_key (css : String → QueryResult) (value : String)
    (s : App) :
    (handleLanguageChange css value s).currentLanguage = value ∧
    getItem (handleLanguageChange css value s).localStorage "selectedLanguage"
      = some value ∧
    (handleLanguageChange css value s).console = s.console ∧
    (handleLanguageChange css value s).currentVerseIndex = s.currentVerseIndex ∧
    (plainKey value = true → (handleLanguageChange css value s).uncaught = s.uncaught) ∧
    (querySection css value ≠ QueryResult.syntaxError →
      (handleLanguageChange css value s).uncaught = s.uncaught) ∧
    (querySection css value = QueryResult.syntaxError →
      (handleLanguageChange css value s).uncaught =
        s.uncaught ++ ["SyntaxError: not a valid selector"]) := by
  have hwell : querySection css value ≠ QueryResult.syntaxError →
      (handleLanguageChange css value s).uncaught = s.uncaught := by
    intro h
    rw [handleLanguageChange_uncaught, if_neg h]
  refine ⟨handleLanguageChange_currentLanguage css value s, ?_,
    handleLanguageChange_console css value s,
    handleLanguageChange_currentVerseIndex css value s,
    fun hp => hwell (querySection_of_plainKey css value hp), hwell, fun h => ?_⟩
  · rw [handleLanguageChange_localStorage, getItem_setItem_self]
  · rw [handleLanguageChange_uncaught, if_pos h]

/-- The plain key `french` is stored without any error; the key with a double quote is
stored as well, and the handler then ends with the `SyntaxError`. -/
theorem handleLanguageChange_any_key_witness :
    (plainKey "french" = true ∧
      (handleLanguageChange rejectingCss "french" (initialApp [])).uncaught =
        (initialApp []).uncaught) ∧
    (querySection rejectingCss quotedKey = QueryResult.syntaxError ∧
      (handleLanguageChange rejectingCss quotedKey (initialApp [])).currentLanguage
        = quotedKey ∧
      (handleLanguageChange rejectingCss quotedKey (initialApp [])).uncaught =
        (initialApp []).uncaught ++ ["SyntaxError: not a valid selector"]) :=
  ⟨⟨by decide,
    (handleLanguageChange_any_key rejectingCss "french" (initialApp [])).2.2.2.2.1
      (by decide)⟩,
   ⟨by decide,
    (handleLanguageChange_any_key rejectingCss quotedKey (initialApp [])).1,
    (handleLanguageChange_any_key rejectingCss quotedKey (initialApp [])).2.2.2.2.2.2
      (by decide)⟩⟩

/-- C9, as stated, fails: with `french` stored under `selectedLanguage`, the initial
`currentLanguage` is `french`, which is not a supported key, at module initialisation
and at the end of the start-up handler. -/
theorem startup_keeps_unsupported_language :
    "french" ∉ supportedLanguages ∧
    getItem [("selectedLanguage", "french")] "selectedLanguage" = some "french" ∧
    (initialApp [("selectedLanguage", "french")]).currentLanguage = "french" ∧
    (startSession rejectingCss thirtyVerses ⟨2024, 11, 31⟩
      [("selectedLanguage", "french")]).currentLanguage = "french" ∧
    (startSession rejectingCss thirtyVerses ⟨2024, 11, 31⟩
      [("selectedLanguage", "french")]).currentLanguage ∉ supportedLanguages := by
  decide

/-- C9 (amended): for every content of the preference store, the initial
`currentLanguage` is the value stored under `selectedLanguage` whenever that value is
not the empty string (in particular when it is a supported key, but also when it is
not), and the fixed default `english` when the value is absent or the empty string. -/
theorem initial_language (css : String → QueryResult) (verses : List Verse)
    (today : JSDate) (store : Storage) :
    (∀ v : String, getItem store "selectedLanguage" = some v → v ≠ "" →
      (initialApp store).currentLanguage = v ∧
      (startSession css verses today store).currentLanguage = v) ∧
    (∀ v : String, getItem store "selectedLanguage" = some v → v ∈ supportedLanguages →
      (initialApp store).currentLanguage = v ∧
      (startSession css verses today store).currentLanguage = v) ∧
    (getItem store "selectedLanguage" = none ∨ getItem store "selectedLanguage" = some "" →
      (initialApp store).currentLanguage = "english" ∧
      (startSession css verses today store).currentLanguage = "english") := by
  have hne : ∀ v : String, getItem store "selectedLanguage" = some v → v ≠ "" →
      (initialApp store).currentLanguage = v ∧
      (startSession css verses today store).currentLanguage = v := by
    intro v hv hv2
    rw [startSession_currentLanguage]
    show orDefault (getItem store "selectedLanguage") "english" = v ∧ _
    rw [hv]
    simp only [orDefault, if_neg hv2, and_self]
  refine ⟨hne, fun v hv hmem => hne v hv ?_, fun h => ?_⟩
  · intro he
    rw [he] at hmem
    exact absurd hmem (by decide)
  · rw [startSession_currentLanguage]
    show orDefault (getItem store "selectedLanguage") "english" = "english" ∧ _
    rcases h with h | h <;> rw [h] <;> exact ⟨rfl, rfl⟩

/-- A stored `tamil` is read back; an empty store and a stored empty string give
`english`. -/
theorem initial_language_witness :
    (getItem [("selectedLanguage", "tamil")] "selectedLanguage" = some "tamil" ∧
      (startSession rejectingCss thirtyVerses ⟨2024, 11, 31⟩
        [("selectedLanguage", "tamil")]).currentLanguage = "tamil") ∧
    (getItem [] "selectedLanguage" = none ∧
      (startSession rejectingCss thirtyVerses ⟨2024, 11, 31⟩ []).currentLanguage
        = "english") ∧
    (getItem [("selectedLanguage", "")] "selectedLanguage" = some "" ∧
      (initialApp [("selectedLanguage", "")]).currentLanguage = "english") :=
  ⟨⟨by decide,
    ((initial_language rejectingCss thirtyVerses ⟨2024, 11, 31⟩
      [("selectedLanguage", "tamil")]).2.1 "tamil" (by decide) (by decide)).2⟩,
   ⟨by decide,
    ((initial_language rejectingCss thirtyVerses ⟨2024, 11, 31⟩ []).2.2
      (Or.inl (by decide))).2⟩,
   ⟨by decide,
    ((initial_language rejectingCss thirtyVerses ⟨2024, 11, 31⟩
      [("selectedLanguage", "")]).2.2 (Or.inr (by decide))).1⟩⟩

/-- C10: for every supported language key L and every prior state,
`handleLanguageChange` with L sets `currentLanguage` to L, writes L under the key
`selectedLanguage` in the preference store (other keys keep their values) and leaves
`currentVerseIndex` unchanged, without any error; a new session started from the
resulting store has `currentLanguage` equal to L. -/
theorem language_round_trip (css : String → QueryResult) (verses : List Verse)
    (today : JSDate) (L : String) (s : App)
    (hL : L ∈ supportedLanguages) :
    (handleLanguageChange css L s).currentLanguage = L ∧
    getItem (handleLanguageChange css L s).localStorage "selectedLanguage" = some L ∧
    (∀ other : String, other ≠ "selectedLanguage" →
      getItem (handleLanguageChange css L s).localStorage other
        = getItem s.localStorage other) ∧
    (handleLanguageChange css L s).currentVerseIndex = s.currentVerseIndex ∧
    (handleLanguageChange css L s).console = s.console ∧
    (handleLanguageChange css L s).uncaught = s.uncaught ∧
    (initialApp (handleLanguageChange css L s).localStorage).currentLanguage = L ∧
    (startSession css verses today
      (handleLanguageChange css L s).localStorage).currentLanguage = L := by
  have hne : L ≠ "" := by
    intro he
    rw [he] at hL
    exact absurd hL (by decide)
  have hplain : plainKey L = true := by
    simp only [supportedLanguages, List.mem_cons, List.mem_singleton, List.mem_nil_iff,
      or_false] at hL
    rcases hL with h | h | h <;> rw [h] <;> decide
  have hget : getItem (handleLanguageChange css L s).localStorage "selectedLanguage"
      = some L := by
    rw [handleLanguageChange_localStorage, getItem_setItem_self]
  have hinit : orDefault
      (getItem (handleLanguageChange css L s).localStorage "selectedLanguage")
      "english" = L := by
    rw [hget]
    simp only [orDefault, if_neg hne]
  refine ⟨handleLanguageChange_currentLanguage css L s, hget, fun other ho => ?_,
    handleLanguageChange_currentVerseIndex css L s, handleLanguageChange_console css L s,
    ?_, hinit, ?_⟩
  · rw [handleLanguageChange_localStorage, getItem_setItem_of_ne _ _ _ _ ho]
  · rw [handleLanguageChange_uncaught, if_neg (querySection_of_plainKey css L hplain)]
  · rw [startSession_currentLanguage, hinit]

/-- Choosing `sanskrit` while `tamil` is stored: the store then holds `sanskrit` and the
next session starts in `sanskrit`. -/
theorem language_round_trip_witness :
    "sanskrit" ∈ supportedLanguages ∧
    (handleLanguageChange rejectingCss "sanskrit"
      (initialApp [("selectedLanguage", "tamil")])).currentLanguage = "sanskrit" ∧
    (startSession rejectingCss thirtyVerses ⟨2024, 11, 31⟩
      (handleLanguageChange rejectingCss "sanskrit"
        (initialApp [("selectedLanguage", "tamil")])).localStorage).currentLanguage
      = "sanskrit" :=
  ⟨by decide,
   (language_round_trip rejectingCss thirtyVerses ⟨2024, 11, 31⟩ "sanskrit"
      (initialApp [("selectedLanguage", "tamil")]) (by decide)).1,
   (language_round_trip rejectingCss thirtyVerses ⟨2024, 11, 31⟩ "sanskrit"
      (initialApp [("selectedLanguage", "tamil")]) (by decide)).2.2.2.2.2.2.2⟩

end Thiruppavai
